import Mathlib

set_option maxRecDepth 8000

/-!
Verification development for the math-whiz room-synchronization core.

The TypeScript source is shallowly embedded: JavaScript numbers that
only ever hold integers are modelled as `Nat`/`Int`; 32-bit coercions
performed by JS bitwise operators are modelled via `% 2 ^ 32`; Firestore
documents are records of optional fields; the Firestore transaction of a
finish event is a pure function on a state value; float divisions that
are only exact on integer-divisible operands go through an `Option` so
that inexactness would be observable as failure.
-/

namespace MathWhiz

/-! ### Deterministic question generator (game screen, seeded variant)

The seeded game screen defines `mulberry32`, `randInt`, `gcd`, `lcm`,
`highestPrimeFactor` and `generateQuestion`.  JS closure state `t`
accumulates `t += 0x6d2b79f5` without wrapping (floats are exact here);
every bitwise operator coerces its operand with ToUint32/ToInt32, so the
mix depends only on `t % 2^32`, which is how the coercions appear below.
`Math.imul` produces the low 32 bits of the product; the intermediate
`r + Math.imul(..)` is an exact float sum whose subsequent xor coerces it
mod `2^32`, so unsigned residues model the signed values faithfully. -/

def imul32 (a b : Nat) : Nat := (a * b) % 4294967296

/-- Mixing function of `mulberry32` applied to the accumulated state. -/
def mbOut (t : Nat) : Nat :=
  let t0 := t % 4294967296
  let r1 := imul32 (t0 ^^^ (t0 >>> 15)) (1 ||| t0)
  let r2 := r1 ^^^ ((r1 + imul32 (r1 ^^^ (r1 >>> 7)) (61 ||| r1)) % 4294967296)
  r2 ^^^ (r2 >>> 14)

/-- One draw: `t += 0x6d2b79f5` then mix; returns (32-bit draw, new state).
The JS function returns the draw divided by `2^32` as a float in `[0,1)`;
we keep the numerator, which determines every downstream computation. -/
def mulberryNext (t : Nat) : Nat × Nat :=
  (mbOut (t + 1831565813), t + 1831565813)

/-- Model of `randInt(rng, min, max) = Math.floor(rng() * (max - min + 1)) + min`
on a draw numerator `u < 2^32`: the float product `(u / 2^32) * k` is exact
(both factors and the product are exactly representable), so its floor is
the Nat division below. -/
def randIntU (u min max : Nat) : Nat :=
  u * (max - min + 1) / 4294967296 + min

/-- Model of the source `gcd(a, b) = b === 0 ? Math.abs(a) : gcd(b, a % b)`
(operands here are always nonnegative integers). -/
def jsGcd (a b : Nat) : Nat :=
  if h : b = 0 then a else jsGcd b (a % b)
termination_by b
decreasing_by exact Nat.mod_lt _ (Nat.pos_of_ne_zero h)

/-- Float division, exact only when the divisor is nonzero and divides the
dividend; otherwise the JS result is not an integer (or NaN), modelled
as `none`. -/
def floatDivExact (a b : Nat) : Option Nat :=
  if b ≠ 0 ∧ b ∣ a then some (a / b) else none

/-- Model of the source `lcm(a, b) = Math.abs((a * b) / gcd(a, b))`
(`Math.abs` is the identity on the nonnegative operands drawn here). -/
def jsLcm (a b : Nat) : Option Nat := floatDivExact (a * b) (jsGcd a b)

/-- Inner loop of `highestPrimeFactor`: `while (num % i === 0) { maxPrime = i; num /= i; }`.
Fuel models possible divergence; the divisions are exact by the guard. -/
def hpfInner (fuel : Nat) (i : Nat) (num : Nat) (maxPrime : Int) : Option (Nat × Int) :=
  match fuel with
  | 0 => none
  | f + 1 =>
    if num % i = 0 then hpfInner f i (num / i) (Int.ofNat i)
    else some (num, maxPrime)

/-- Outer loop of `highestPrimeFactor`: `for (let i = 3; i * i <= num; i += 2)`. -/
def hpfOuter (fuel : Nat) (i : Nat) (num : Nat) (maxPrime : Int) : Option (Nat × Int) :=
  match fuel with
  | 0 => none
  | f + 1 =>
    if i * i ≤ num then
      match hpfInner (f + 1) i num maxPrime with
      | none => none
      | some (num2, mp2) => hpfOuter f (i + 2) num2 mp2
    else some (num, maxPrime)

/-- Leading loop of `highestPrimeFactor`: `while (num % 2 === 0) { maxPrime = 2; num /= 2; }`. -/
def hpfEvenLoop (fuel : Nat) (num : Nat) (maxPrime : Int) : Option (Nat × Int) :=
  match fuel with
  | 0 => none
  | f + 1 =>
    if num % 2 = 0 then hpfEvenLoop f (num / 2) 2
    else some (num, maxPrime)

/-- Model of `highestPrimeFactor(n)`; `maxPrime` starts at `-1`, hence `Int`.
Fuel exhaustion (`none`) models nontermination of the JS while loops. -/
def highestPrimeFactorF (fuel : Nat) (n : Nat) : Option Int :=
  match hpfEvenLoop fuel n (-1) with
  | none => none
  | some (num1, mp1) =>
    match hpfOuter fuel 3 num1 mp1 with
    | none => none
    | some (num2, mp2) => if 2 < num2 then some (Int.ofNat num2) else some mp2

structure Question where
  prompt : String
  answer : Int
deriving DecidableEq, Repr

/-- Helper for the two successive draws every binary-operand branch makes:
`draw2 t lo1 hi1 lo2 hi2` is (first operand, second operand, final state). -/
def draw2 (t lo1 hi1 lo2 hi2 : Nat) : Nat × Nat × Nat :=
  (randIntU (mulberryNext t).1 lo1 hi1,
   randIntU (mulberryNext (mulberryNext t).2).1 lo2 hi2,
   (mulberryNext (mulberryNext t).2).2)

/-- Question built by branch `case 'add'`: `a = randInt(25,150)`, `b = randInt(15,120)`. -/
def addQ (a b : Nat) : Question :=
  { prompt := Nat.repr a ++ " + " ++ Nat.repr b, answer := (a : Int) + b }

/-- Branch `case 'add'` of `generateQuestion`. -/
def genAdd (t : Nat) : Option (Question × Nat) :=
  some (addQ (draw2 t 25 150 15 120).1 (draw2 t 25 150 15 120).2.1,
    (draw2 t 25 150 15 120).2.2)

/-- Question built by branch `case 'sub'` from `a = randInt(80,180)`,
`b = randInt(20,90)`: `bigger - smaller`. -/
def subQ (a b : Nat) : Question :=
  { prompt := Nat.repr (Nat.max a b) ++ " - " ++ Nat.repr (Nat.min a b),
    answer := (Nat.max a b : Int) - Nat.min a b }

/-- Branch `case 'sub'`. -/
def genSub (t : Nat) : Option (Question × Nat) :=
  some (subQ (draw2 t 80 180 20 90).1 (draw2 t 80 180 20 90).2.1,
    (draw2 t 80 180 20 90).2.2)

/-- Question built by branch `case 'mul'`: `a = randInt(7,15)`, `b = randInt(6,14)`. -/
def mulQ (a b : Nat) : Question :=
  { prompt := Nat.repr a ++ " × " ++ Nat.repr b, answer := (a : Int) * b }

/-- Branch `case 'mul'`. -/
def genMul (t : Nat) : Option (Question × Nat) :=
  some (mulQ (draw2 t 7 15 6 14).1 (draw2 t 7 15 6 14).2.1, (draw2 t 7 15 6 14).2.2)

/-- Question built by branch `case 'div'`: the dividend is constructed as
`divisor * quotient` and the answer is the quotient. -/
def divQ (divisor quotient : Nat) : Question :=
  { prompt := Nat.repr (divisor * quotient) ++ " ÷ " ++ Nat.repr divisor,
    answer := (quotient : Int) }

/-- Branch `case 'div'`: `divisor = randInt(3,12)`, `quotient = randInt(4,16)`. -/
def genDiv (t : Nat) : Option (Question × Nat) :=
  some (divQ (draw2 t 3 12 4 16).1 (draw2 t 3 12 4 16).2.1, (draw2 t 3 12 4 16).2.2)

/-- Question built by branch `case 'lcm'` once the exact value `v` of
`lcm(a, b)` is available. -/
def lcmQ (a b v : Nat) : Question :=
  { prompt := "LCM(" ++ Nat.repr a ++ ", " ++ Nat.repr b ++ ")", answer := (v : Int) }

/-- Branch `case 'lcm'`: `a = randInt(4,12)`, `b = randInt(5,14)`; the float
division inside `lcm` goes through `floatDivExact`, so the branch yields a
question exactly when that division is exact. -/
def genLcm (t : Nat) : Option (Question × Nat) :=
  Option.map
    (fun v => (lcmQ (draw2 t 4 12 5 14).1 (draw2 t 4 12 5 14).2.1 v,
      (draw2 t 4 12 5 14).2.2))
    (jsLcm (draw2 t 4 12 5 14).1 (draw2 t 4 12 5 14).2.1)

/-- Question built by branch `case 'hcf'` from the two constructed multiples. -/
def hcfQ (a b : Nat) : Question :=
  { prompt := "HCF(" ++ Nat.repr a ++ ", " ++ Nat.repr b ++ ")",
    answer := (jsGcd a b : Int) }

/-- Third draw of branch `case 'hcf'` after the state `t2` of the second. -/
def hcfThird (t2 : Nat) : Nat × Nat :=
  (randIntU (mulberryNext t2).1 3 11, (mulberryNext t2).2)

/-- Branch `case 'hcf'`: `base = randInt(2,12)`, `a = base * randInt(4,12)`,
`b = base * randInt(3,11)`. -/
def genHcf (t : Nat) : Option (Question × Nat) :=
  some (hcfQ ((draw2 t 2 12 4 12).1 * (draw2 t 2 12 4 12).2.1)
      ((draw2 t 2 12 4 12).1 * (hcfThird (draw2 t 2 12 4 12).2.2).1),
    (hcfThird (draw2 t 2 12 4 12).2.2).2)

/-- Question built by branch `case 'hpf'` from the drawn operand and the
computed factor. -/
def hpfQ (num : Nat) (v : Int) : Question :=
  { prompt := "Highest prime factor of " ++ Nat.repr num, answer := v }

/-- Branch `case 'hpf'`: `num = randInt(60,220)`; fuel 64 is ample for every
operand in `[60, 220]` (the termination theorem for this range is proved
below). -/
def genHpf (t : Nat) : Option (Question × Nat) :=
  Option.map
    (fun v => (hpfQ (randIntU (mulberryNext t).1 60 220) v, (mulberryNext t).2))
    (highestPrimeFactorF 64 (randIntU (mulberryNext t).1 60 220))

/-- Question built by the root case of branch `case 'square'`: radicand `n * n`. -/
def sqrtQ (n : Nat) : Question :=
  { prompt := "√" ++ Nat.repr (n * n), answer := (n : Int) }

/-- Question built by the non-root case of branch `case 'square'`. -/
def squareQ (n : Nat) : Question :=
  { prompt := Nat.repr n ++ "²", answer := (n : Int) * n }

/-- Branch `case 'square'`: `rng() < 0.5` on the draw numerator `u` is
exactly `u < 2^31`; root case draws `n = randInt(6,15)`, square case
`n = randInt(9,18)`. -/
def genSquare (t : Nat) : Option (Question × Nat) :=
  if (mulberryNext t).1 < 2147483648 then
    some (sqrtQ (randIntU (mulberryNext (mulberryNext t).2).1 6 15),
      (mulberryNext (mulberryNext t).2).2)
  else
    some (squareQ (randIntU (mulberryNext (mulberryNext t).2).1 9 18),
      (mulberryNext (mulberryNext t).2).2)

/-- Question built by the root case of branch `case 'cube'`: radicand `n * n * n`. -/
def cbrtQ (n : Nat) : Question :=
  { prompt := "∛" ++ Nat.repr (n * n * n), answer := (n : Int) }

/-- Question built by the non-root case of branch `case 'cube'`. -/
def cubeQ (n : Nat) : Question :=
  { prompt := Nat.repr n ++ "³", answer := ((n : Int) * n) * n }

/-- Branch `case 'cube'`: `rng() < 0.4` on the draw numerator `u` is exactly
`5 * u < 2^33` (the double nearest to 0.4 exceeds 2/5 by far less than the
draw granularity `2^-32`, so the threshold integer is the same); root case
draws `n = randInt(2,6)`, cube case `n = randInt(3,8)`. -/
def genCube (t : Nat) : Option (Question × Nat) :=
  if 5 * (mulberryNext t).1 < 8589934592 then
    some (cbrtQ (randIntU (mulberryNext (mulberryNext t).2).1 2 6),
      (mulberryNext (mulberryNext t).2).2)
  else
    some (cubeQ (randIntU (mulberryNext (mulberryNext t).2).1 3 8),
      (mulberryNext (mulberryNext t).2).2)

/-- Model of `generateQuestion(rng)`: draws the operation index uniformly
from 0..8 (`operations.length - 1 = 8`) and dispatches; the source's
unreachable `default` arm returns the fixed `12 + 8` question. -/
def generateQuestion (t : Nat) : Option (Question × Nat) :=
  if randIntU (mulberryNext t).1 0 8 = 0 then genAdd (mulberryNext t).2
  else if randIntU (mulberryNext t).1 0 8 = 1 then genSub (mulberryNext t).2
  else if randIntU (mulberryNext t).1 0 8 = 2 then genMul (mulberryNext t).2
  else if randIntU (mulberryNext t).1 0 8 = 3 then genDiv (mulberryNext t).2
  else if randIntU (mulberryNext t).1 0 8 = 4 then genLcm (mulberryNext t).2
  else if randIntU (mulberryNext t).1 0 8 = 5 then genHcf (mulberryNext t).2
  else if randIntU (mulberryNext t).1 0 8 = 6 then genHpf (mulberryNext t).2
  else if randIntU (mulberryNext t).1 0 8 = 7 then genSquare (mulberryNext t).2
  else if randIntU (mulberryNext t).1 0 8 = 8 then genCube (mulberryNext t).2
  else some ({ prompt := "12 + 8", answer := 20 }, (mulberryNext t).2)

/-- Generator instance construction `mulberry32(seed)`: the closure stores
`seed >>> 0`. -/
def initGen (seed : Nat) : Nat := seed % 4294967296

/-- State after drawing question number `i` (0-based): threads the rng
state through `i+1` draws, `none` if any draw fails. -/
def questionStream : Nat → Nat → Option (Question × Nat)
  | t, 0 => generateQuestion t
  | t, i + 1 =>
    match generateQuestion t with
    | some (_, t2) => questionStream t2 i
    | none => none

/-- The (prompt, answer) pair a client sees at draw index `i` when its
generator instance was seeded with `seed`. -/
def nthQuestionOfSeed (seed i : Nat) : Option Question :=
  (questionStream (initGen seed) i).map (·.1)

/-! ### Room state model

A Room document and its `players` sub-collection, as written by
`createRoom` (friends screen), `joinRoom` (join screen), `setDuration` and
`handleStart` (host screen), `leaveRoom` (wait screen), the `finishGame`
transaction and the host branch of `handleExit` (game screen), and
`handleLeaveAsHost` (host screen).  Absent document fields are `none`;
server timestamps are abstract `Nat` instants. -/

inductive RoomStatus
  | lobby
  | in_progress
  | ended
deriving DecidableEq, Repr

inductive EndedReason
  | all_finished
  | host_left
deriving DecidableEq, Repr

structure Room where
  code : String
  hostUid : String
  status : RoomStatus
  locked : Bool
  maxPlayers : Nat
  durationSec : Nat
  seed : Option Nat
  playerCount : Option Nat
  finishedCount : Nat
  endedReason : Option EndedReason
  startedAt : Option Nat
  endedAt : Option Nat
deriving DecidableEq, Repr

/-- Player sub-entity document; every field optional since Firestore merges
write only the listed fields.  A `finishedAt` of `some t` models a stored
timestamp (always truthy in JS, so `!!finishedAt` is `isSome`). -/
structure Player where
  uid : Option String
  displayName : Option String
  isHost : Option Bool
  joinedAt : Option Nat
  score : Option Nat
  attempts : Option Nat
  correct : Option Nat
  accuracy : Option Nat
  finishedAt : Option Nat
deriving DecidableEq, Repr

/-- The players sub-collection: documents keyed by uid. -/
abbrev Roster := List (String × Player)

def lookupP (ps : Roster) (u : String) : Option Player :=
  (ps.find? (fun q => q.1 == u)).map (·.2)

/-- Firestore `setDoc` on `players/{uid}`: at most one document per key. -/
def upsertP (ps : Roster) (u : String) (p : Player) : Roster :=
  (u, p) :: ps.filter (fun q => !(q.1 == u))

/-- Firestore `deleteDoc` on `players/{uid}`. -/
def deleteP (ps : Roster) (u : String) : Roster :=
  ps.filter (fun q => !(q.1 == u))

/-- Number of player documents stored for a given uid. -/
def countP (ps : Roster) (u : String) : Nat :=
  (ps.filter (fun q => q.1 == u)).length

/-- Shared room state: the room document (if it exists) and its players
sub-collection. -/
structure GState where
  room : Option Room
  players : Roster
deriving DecidableEq, Repr

/-- Final score snapshot a finishing client reports (computed client-side
from its local score, attempts, solved count and rounded accuracy). -/
structure Snap where
  score : Nat
  attempts : Nat
  correct : Nat
  accuracy : Nat
deriving DecidableEq, Repr

/-- State created by `createRoom`: room with `status: 'lobby'`,
`locked: false`, `maxPlayers: 8`, `durationSec: 60`, `seed: null`, and the
creator as sole player with `isHost: true` and zeroed score fields.
`playerCount`/`finishedCount`/`endedReason`/`startedAt`/`endedAt` are not
in the created document; the game code reads a missing `finishedCount` as 0. -/
def createRoom (code hostUid name : String) (now : Nat) : GState :=
  { room := some
      { code := code, hostUid := hostUid, status := .lobby, locked := false,
        maxPlayers := 8, durationSec := 60, seed := none, playerCount := none,
        finishedCount := 0, endedReason := none, startedAt := none, endedAt := none },
    players := [(hostUid,
      { uid := some hostUid, displayName := some name, isHost := some true,
        joinedAt := some now, score := some 0, attempts := some 0,
        correct := some 0, accuracy := some 0, finishedAt := none })] }

/-- Player document written by `joinRoom`'s `setDoc(..., { merge: true })`:
the listed fields (including `score: 0`, `attempts: 0`) overwrite, fields
not listed (only `finishedAt` here) keep their prior value. -/
def joinMerge (old : Option Player) (uid name : String) (now : Nat) : Player :=
  { uid := some uid, displayName := some name, isHost := some false,
    joinedAt := some now, score := some 0, attempts := some 0,
    correct := some 0, accuracy := some 0,
    finishedAt := old.bind Player.finishedAt }

/-- Model of `joinRoom(code)`: fails (state unchanged) on a missing room,
on `status !== 'lobby' || locked`, and on roster size at or above
`maxPlayers`; otherwise merges the player document keyed by uid. -/
def joinRoom (st : GState) (uid name : String) (now : Nat) : GState :=
  match st.room with
  | none => st
  | some r =>
    if r.status ≠ .lobby ∨ r.locked = true then st
    else if r.maxPlayers ≤ st.players.length then st
    else { st with players := upsertP st.players uid (joinMerge (lookupP st.players uid) uid name now) }

/-- Model of `setDuration` (host screen): no-op unless `status === 'lobby'`. -/
def setDuration (st : GState) (d : Nat) : GState :=
  match st.room with
  | none => st
  | some r => if r.status ≠ .lobby then st else { st with room := some { r with durationSec := d } }

/-- Model of `leaveRoom` (wait screen, non-host): deletes only the player
document, never touching the room's status. -/
def leaveRoom (st : GState) (uid : String) : GState :=
  { st with players := deleteP st.players uid }

/-- Seed drawn by `handleStart`: `Math.floor(Math.random() * 2_000_000_000) + 1`
on a random double `u / 2^53`, `u < 2^53`. -/
def mkSeed (u : Nat) : Nat :=
  u * 2000000000 / 9007199254740992 + 1

/-- Host check of the host screen: `me?.uid && room?.hostUid ? me.uid === room.hostUid : true`
(defaults to true when the caller identity is unknown). -/
def isHostOf (caller : Option String) (hostUid : String) : Bool :=
  match caller with
  | some uid => uid == hostUid
  | none => true

/-- Model of `handleStart`: requires the host check, `status === 'lobby'`,
`!locked`, and `players.length ≥ 2`; on success a single write sets
`status: 'in_progress'`, `locked: true`, a fresh seed, `playerCount`
frozen to the roster length, `finishedCount: 0`, `endedReason: null`, and
`startedAt: serverTimestamp()`. -/
def handleStart (st : GState) (caller : Option String) (u : Nat) (now : Nat) : GState :=
  match st.room with
  | none => st
  | some r =>
    if isHostOf caller r.hostUid = false then st
    else if r.status ≠ .lobby ∨ r.locked = true then st
    else if st.players.length < 2 then st
    else { st with room := some { r with
        status := .in_progress, locked := true, seed := some (mkSeed u),
        playerCount := some st.players.length, finishedCount := 0,
        endedReason := none, startedAt := some now } }

/-- Player document written by the finish transaction's
`tx.set(playerRef, {...}, { merge: true })`: uid, displayName, the score
snapshot and a fresh `finishedAt: serverTimestamp()` overwrite; `isHost`
and `joinedAt` are not listed and keep their prior values. -/
def finishMerge (old : Option Player) (uid name : String) (sn : Snap) (now : Nat) : Player :=
  { uid := some uid, displayName := some name,
    isHost := old.bind Player.isHost, joinedAt := old.bind Player.joinedAt,
    score := some sn.score, attempts := some sn.attempts,
    correct := some sn.correct, accuracy := some sn.accuracy,
    finishedAt := some now }

/-- Terminal write of the finish transaction: the increment together with
`status: 'ended'`, `endedReason: 'all_finished'`, `endedAt: serverTimestamp()`
in one atomic update. -/
def finishTerminal (r : Room) (now : Nat) : Room :=
  { r with
    finishedCount := r.finishedCount + 1, status := .ended,
    endedReason := some .all_finished, endedAt := some now }

/-- Model of the `finishGame` room transaction (one atomic read-modify-write):
reads the room and the player, always merges the player snapshot
(including a fresh `finishedAt`), then runs the room-progression step
unless `status !== 'in_progress'`, `endedReason` is set, the player had
already finished, or `playerCount` is missing/zero; otherwise increments
`finishedCount` and, when the incremented value reaches `playerCount`,
performs the terminal transition in the same write.  The boolean result
records whether this transaction performed that terminal transition. -/
def finishGameTx (st : GState) (uid name : String) (sn : Snap) (now : Nat) :
    GState × Bool :=
  match st.room with
  | none => (st, false)
  | some r =>
    let old := lookupP st.players uid
    let alreadyFinished := (old.bind Player.finishedAt).isSome
    let players2 := upsertP st.players uid (finishMerge old uid name sn now)
    if r.status ≠ .in_progress then ({ room := some r, players := players2 }, false)
    else if r.endedReason.isSome then ({ room := some r, players := players2 }, false)
    else if alreadyFinished then ({ room := some r, players := players2 }, false)
    else
      match r.playerCount with
      | none => ({ room := some r, players := players2 }, false)
      | some pc =>
        if pc = 0 then ({ room := some r, players := players2 }, false)
        else if pc ≤ r.finishedCount + 1 then
          ({ room := some (finishTerminal r now), players := players2 }, true)
        else
          ({ room := some { r with finishedCount := r.finishedCount + 1 },
             players := players2 }, false)

/-- The unconditional write of the host-abandonment paths
(`handleLeaveAsHost` on the host screen, and the host branch of
`handleExit` on the game screen): `status: 'ended'`,
`endedReason: 'host_left'`, `endedAt: serverTimestamp()`, `locked: true`,
with no precondition on the current room state. -/
def hostLeftWrite (r : Room) (now : Nat) : Room :=
  { r with
    status := .ended, endedReason := some .host_left,
    endedAt := some now, locked := true }

/-- Host abandonment as a state operation (`updateDoc` fails silently if
the room is gone). -/
def hostLeave (st : GState) (now : Nat) : GState :=
  match st.room with
  | none => st
  | some r => { st with room := some (hostLeftWrite r now) }

/-- One finish event: the finishing player's identity, reported snapshot
and commit instant. -/
structure FinishEv where
  uid : String
  name : String
  sn : Snap
  now : Nat
deriving DecidableEq, Repr

/-- Serializes a list of finish transactions (Firestore runs each
transaction atomically, so any interleaving is some serialization order);
also counts how many of them performed the terminal transition. -/
def runFinishes : GState → List FinishEv → GState × Nat
  | st, [] => (st, 0)
  | st, ev :: rest =>
    let r1 := finishGameTx st ev.uid ev.name ev.sn ev.now
    let r2 := runFinishes r1.1 rest
    (r2.1, (if r1.2 then 1 else 0) + r2.2)

/-- The mutating operations of the room lifecycle. -/
inductive Op
  | join (uid name : String) (now : Nat)
  | leave (uid : String)
  | setDur (d : Nat)
  | start (caller : Option String) (u : Nat) (now : Nat)
  | finish (ev : FinishEv)
  | hostExit (now : Nat)

def applyOp (st : GState) : Op → GState
  | .join uid name now => joinRoom st uid name now
  | .leave uid => leaveRoom st uid
  | .setDur d => setDuration st d
  | .start caller u now => handleStart st caller u now
  | .finish ev => (finishGameTx st ev.uid ev.name ev.sn ev.now).1
  | .hostExit now => hostLeave st now

/-- Environment guarantee for an operation: `Math.random()` returns a
double in `[0, 1)`, i.e. a numerator below `2^53`. -/
def opOK : Op → Prop
  | .start _ u _ => u < 9007199254740992
  | _ => True

/-- Room states reachable from a `createRoom` through the lifecycle
operations. -/
inductive Reachable : GState → Prop
  | create : ∀ code hostUid name now, Reachable (createRoom code hostUid name now)
  | step : ∀ st op, Reachable st → opOK op → Reachable (applyOp st op)

/-- Forward order on room statuses: lobby → in_progress → ended. -/
def statusRank : RoomStatus → Nat
  | .lobby => 0
  | .in_progress => 1
  | .ended => 2

/-- Seed parameter handed to the game screen when a client navigates into a
room game (host and wait screens both guard on
`status === 'in_progress' && seed` — and the host screen on `durationSec` —
before routing with `seed: String(room.seed)`). -/
def gameLaunchSeed (r : Room) : Option Nat :=
  if r.status = .in_progress then
    match r.seed with
    | some s => if s ≠ 0 then (if r.durationSec ≠ 0 then some s else none) else none
    | none => none
  else none

/-- The game screen's generator choice
`seedNumber ? mulberry32(seedNumber) : Math.random`: true iff the seeded
deterministic generator is constructed (the parsed seed param is present,
numeric and nonzero). -/
def usesSeededRng (seedParam : Option Nat) : Bool :=
  match seedParam with
  | some s => s ≠ 0
  | none => false

/-! ### Result ranking (room-result screen) -/

structure PlayerResult where
  uid : String
  displayName : String
  score : Nat
  accuracy : Nat
  attempts : Nat
deriving DecidableEq, Repr

structure RankedPlayer where
  uid : String
  displayName : String
  score : Nat
  accuracy : Nat
  attempts : Nat
  rank : Nat
  isWinner : Bool
  isTopAccuracy : Bool
  isMe : Bool
deriving DecidableEq, Repr

/-- Order decided by `computeRanks`'s comparator: score descending, then
accuracy descending, then display name ascending (`localeCompare` on the
room's plain names is code-unit order).  `playerBefore a b` holds when the
comparator puts `a` at or before `b`. -/
def playerBefore (a b : PlayerResult) : Prop :=
  b.score < a.score ∨ (b.score = a.score ∧
    (b.accuracy < a.accuracy ∨ (b.accuracy = a.accuracy ∧ a.displayName ≤ b.displayName)))

instance (a b : PlayerResult) : Decidable (playerBefore a b) := by
  unfold playerBefore
  infer_instance

/-- Model of `[...players].sort(comparator)` (a stable comparison sort;
order between entries tied on all three keys is not observed by any
claim). -/
def sortPlayers (players : List PlayerResult) : List PlayerResult :=
  List.insertionSort playerBefore players

/-- Model of `sorted.reduce((max, p) => Math.max(max, p.accuracy), 0)`. -/
def topAccuracyOf (l : List PlayerResult) : Nat :=
  l.foldl (fun m p => Nat.max m p.accuracy) 0

/-- Model of the rank-assignment pass of `computeRanks`: walks the sorted
list with the running (lastScore, lastAcc) pair (`none` initially) and
`currentRank`; an entry matching the last pair keeps `currentRank`,
otherwise the rank jumps to `index + 1`. -/
def rankLoop (topAcc : Nat) (myUid : Option String) :
    List PlayerResult → Nat → Option (Nat × Nat) → Nat → List RankedPlayer
  | [], _, _, _ => []
  | p :: rest, index, last, currentRank =>
    (if last = some (p.score, p.accuracy) then
      { uid := p.uid, displayName := p.displayName, score := p.score,
        accuracy := p.accuracy, attempts := p.attempts, rank := currentRank,
        isWinner := currentRank == 1, isTopAccuracy := p.accuracy == topAcc,
        isMe := myUid == some p.uid } ::
        rankLoop topAcc myUid rest (index + 1) last currentRank
    else
      { uid := p.uid, displayName := p.displayName, score := p.score,
        accuracy := p.accuracy, attempts := p.attempts, rank := index + 1,
        isWinner := (index + 1) == 1, isTopAccuracy := p.accuracy == topAcc,
        isMe := myUid == some p.uid } ::
        rankLoop topAcc myUid rest (index + 1) (some (p.score, p.accuracy)) (index + 1))

/-- Model of `computeRanks(players, myUid)`. -/
def computeRanks (players : List PlayerResult) (myUid : Option String) :
    List RankedPlayer :=
  rankLoop (topAccuracyOf (sortPlayers players)) myUid (sortPlayers players) 0 none 0

/-- Base projection of a ranked entry (the fields copied from the input). -/
def baseOf (rp : RankedPlayer) : PlayerResult :=
  { uid := rp.uid, displayName := rp.displayName, score := rp.score,
    accuracy := rp.accuracy, attempts := rp.attempts }

/-! ### Concrete sample data used by witnesses -/

def pA : PlayerResult := { uid := "A", displayName := "A", score := 100, accuracy := 90, attempts := 10 }

def pB : PlayerResult := { uid := "B", displayName := "B", score := 100, accuracy := 95, attempts := 10 }

def pC : PlayerResult := { uid := "C", displayName := "C", score := 80, accuracy := 99, attempts := 10 }

def sampleSnap : Snap := { score := 50, attempts := 10, correct := 5, accuracy := 50 }

/-- An in-progress room frozen at two players, nobody finished yet. -/
def sampleRoom : Room :=
  { code := "ABC123", hostUid := "h", status := .in_progress, locked := true,
    maxPlayers := 8, durationSec := 60, seed := some 7, playerCount := some 2,
    finishedCount := 0, endedReason := none, startedAt := some 5, endedAt := none }

def samplePlayer (u : String) (host : Bool) (fin : Option Nat) : Player :=
  { uid := some u, displayName := some u, isHost := some host, joinedAt := some 1,
    score := some 0, attempts := some 0, correct := some 0, accuracy := some 0,
    finishedAt := fin }

/-- Two-player in-progress state with nobody finished. -/
def sampleSt : GState :=
  { room := some sampleRoom,
    players := [("h", samplePlayer "h" true none), ("p2", samplePlayer "p2" false none)] }

/-- State whose player p1 already carries a `finishedAt` of 10. -/
def sampleFinishedSt : GState :=
  { room := some sampleRoom,
    players := [("p1", samplePlayer "p1" false (some 10))] }

def sampleEvs : List FinishEv :=
  [{ uid := "h", name := "h", sn := sampleSnap, now := 11 },
   { uid := "p2", name := "p2", sn := sampleSnap, now := 12 }]

/-! ### Generator lemmas -/

theorem xor_lt_m32 {x y : Nat} (hx : x < 4294967296) (hy : y < 4294967296) :
    x ^^^ y < 4294967296 := by
  have h : (4294967296 : Nat) = 2 ^ 32 := by norm_num
  rw [h] at hx hy ⊢
  exact Nat.xor_lt_two_pow hx hy

theorem shiftRight_le_self (x k : Nat) : x >>> k ≤ x := by
  rw [Nat.shiftRight_eq_div_pow]
  exact Nat.div_le_self _ _

theorem mbOut_lt (t : Nat) : mbOut t < 4294967296 := by
  simp only [mbOut, imul32]
  refine xor_lt_m32 (xor_lt_m32 ?_ ?_) (lt_of_le_of_lt (shiftRight_le_self _ _)
    (xor_lt_m32 ?_ ?_)) <;> exact Nat.mod_lt _ (by norm_num)

theorem randIntU_ge (u min max : Nat) : min ≤ randIntU u min max :=
  Nat.le_add_left _ _

theorem randIntU_le {u : Nat} (hu : u < 4294967296) {min max : Nat} (h : min ≤ max) :
    randIntU u min max ≤ max := by
  unfold randIntU
  have hd : u * (max - min + 1) / 4294967296 < max - min + 1 := by
    rw [Nat.div_lt_iff_lt_mul (by norm_num)]
    calc u * (max - min + 1) < 4294967296 * (max - min + 1) :=
          (Nat.mul_lt_mul_right (Nat.succ_pos _)).mpr hu
      _ = (max - min + 1) * 4294967296 := Nat.mul_comm _ _
  omega

theorem jsGcd_eq (a b : Nat) : jsGcd a b = Nat.gcd b a := by
  induction b using Nat.strong_induction_on generalizing a with
  | _ b ih =>
    unfold jsGcd
    split
    · rename_i hb
      subst hb
      simp
    · rename_i hb
      rw [ih (a % b) (Nat.mod_lt _ (Nat.pos_of_ne_zero hb)) b,
        Nat.gcd_rec b a]

theorem jsLcm_isSome {a b : Nat} (ha : 0 < a) : (jsLcm a b).isSome := by
  unfold jsLcm floatDivExact
  rw [if_pos]
  · rfl
  · constructor
    · rw [jsGcd_eq]
      intro h
      rcases Nat.gcd_eq_zero_iff.mp h with ⟨_, ha0⟩
      omega
    · rw [jsGcd_eq]
      exact (Nat.gcd_dvd_right b a).mul_right b

theorem hpf_range_terminates :
    ∀ n, n < 221 → 60 ≤ n → (highestPrimeFactorF 64 n).isSome := by decide

theorem genLcm_isSome (t : Nat) : (genLcm t).isSome := by
  have h : 0 < (draw2 t 4 12 5 14).1 :=
    lt_of_lt_of_le (by norm_num) (randIntU_ge _ 4 12)
  rw [genLcm, Option.isSome_map']
  exact jsLcm_isSome h

theorem genHpf_isSome (t : Nat) : (genHpf t).isSome := by
  have h60 : 60 ≤ randIntU (mulberryNext t).1 60 220 := randIntU_ge _ 60 220
  have h220 : randIntU (mulberryNext t).1 60 220 ≤ 220 := by
    refine randIntU_le ?_ (by norm_num)
    exact mbOut_lt _
  rw [genHpf, Option.isSome_map']
  exact hpf_range_terminates _ (by omega) h60

/-! ### Claim C6: determinism of the seeded question stream -/

/-- C6: for a fixed seed S and draw index i, two independently constructed
generator instances seeded with S produce identical (prompt, answer) pairs
at draw i — the stream is a function of (S, i) alone.  In the pure
embedding the generator state is exactly (seed, draws so far), so the
property is equality of the two runs. -/
theorem seeded_stream_deterministic (seed1 seed2 i : Nat) (h : seed1 = seed2) :
    nthQuestionOfSeed seed1 i = nthQuestionOfSeed seed2 i := by
  rw [h]

/-- Witness for C6 at seed 12345, draw 2. -/
theorem seeded_stream_deterministic_witness :
    12345 = 12345 ∧ nthQuestionOfSeed 12345 2 = nthQuestionOfSeed 12345 2 :=
  ⟨rfl, seeded_stream_deterministic 12345 12345 2 rfl⟩

/-! ### Claim C7: generation is total and answers are exact integers -/

/-- C7: question generation never fails for any generator state — the lcm
float division is exact and the highest-prime-factor loops terminate on
every drawable operand — and the constructed-operand branches are exact:
the division prompt's dividend is divisor × quotient so integer division
recovers the quotient exactly, the square-root radicand is the perfect
square of the answer, and the cube-root radicand determines the answer as
its unique integer cube root. -/
theorem generation_total_and_exact :
    (∀ t : Nat, (generateQuestion t).isSome = true)
    ∧ (∀ u1 u2 : Nat,
        (divQ (randIntU u1 3 12) (randIntU u2 4 16)).answer = (randIntU u2 4 16 : Int)
        ∧ randIntU u1 3 12 * randIntU u2 4 16 / randIntU u1 3 12 = randIntU u2 4 16)
    ∧ (∀ u : Nat,
        (sqrtQ (randIntU u 6 15)).answer = (randIntU u 6 15 : Int)
        ∧ Nat.sqrt (randIntU u 6 15 * randIntU u 6 15) = randIntU u 6 15)
    ∧ (∀ u m : Nat,
        (cbrtQ (randIntU u 2 6)).answer = (randIntU u 2 6 : Int)
        ∧ (m * m * m = randIntU u 2 6 * (randIntU u 2 6) * randIntU u 2 6 →
          m = randIntU u 2 6)) := by
  refine ⟨?_, ?_, ?_, ?_⟩
  · intro t
    unfold generateQuestion
    split_ifs
    · simp [genAdd]
    · simp [genSub]
    · simp [genMul]
    · simp [genDiv]
    · exact genLcm_isSome _
    · simp [genHcf]
    · exact genHpf_isSome _
    · unfold genSquare
      split <;> simp
    · unfold genCube
      split <;> simp
    · simp
  · intro u1 u2
    have h3 : 0 < randIntU u1 3 12 := lt_of_lt_of_le (by norm_num) (randIntU_ge _ 3 12)
    exact ⟨rfl, Nat.mul_div_cancel_left _ h3⟩
  · intro u
    exact ⟨rfl, Nat.sqrt_eq _⟩
  · intro u m
    refine ⟨rfl, fun h => ?_⟩
    have h3 : m ^ 3 = randIntU u 2 6 ^ 3 := by ring_nf; ring_nf at h; omega
    exact Nat.pow_left_injective (by norm_num) h3

/-- Witness for C7's cube-root uniqueness conjunct at u = 0, where the
drawn root is 2 and the radicand 8. -/
theorem generation_total_and_exact_witness :
    (2 : Nat) * 2 * 2 = randIntU 0 2 6 * randIntU 0 2 6 * randIntU 0 2 6 ∧
      (2 : Nat) = randIntU 0 2 6 :=
  ⟨by decide, (generation_total_and_exact.2.2.2 0 2).2 (by decide)⟩

/-! ### Roster lemmas -/

theorem lookupP_upsertP_self (ps : Roster) (u : String) (p : Player) :
    lookupP (upsertP ps u p) u = some p := by
  simp [lookupP, upsertP, List.find?_cons]

theorem find?_filter_key_ne {ps : Roster} {u v : String} (hne : v ≠ u) :
    (ps.filter (fun q => !(q.1 == u))).find? (fun q => q.1 == v) =
      ps.find? (fun q => q.1 == v) := by
  induction ps with
  | nil => rfl
  | cons q rest ih =>
    by_cases hq : q.1 = u
    · have hv : (u == v) = false := by
        simp only [beq_eq_false_iff_ne, ne_eq]
        exact fun h => hne h.symm
      simp [List.filter_cons, hq, List.find?_cons, hv, ih]
    · simp only [List.filter_cons]
      have hqb : (!(q.1 == u)) = true := by simp [hq]
      rw [if_pos hqb]
      by_cases hv : (q.1 == v) = true
      · simp [List.find?_cons, hv]
      · simp only [Bool.not_eq_true] at hv
        simp [List.find?_cons, hv, ih]

theorem lookupP_upsertP_ne {ps : Roster} {u v : String} (p : Player) (hne : v ≠ u) :
    lookupP (upsertP ps u p) v = lookupP ps v := by
  have hu : (u == v) = false := by
    simp only [beq_eq_false_iff_ne, ne_eq]
    exact fun h => hne h.symm
  simp [lookupP, upsertP, List.find?_cons, hu, find?_filter_key_ne hne]

theorem countP_upsertP (ps : Roster) (u : String) (p : Player) :
    countP (upsertP ps u p) u = 1 := by
  simp only [countP, upsertP, List.filter_cons, beq_self_eq_true, if_pos,
    List.length_cons]
  rw [List.filter_filter]
  have hz :
      (List.filter (fun a => (a.1 == u) && !(a.1 == u)) ps) = [] := by
    induction ps with
    | nil => rfl
    | cons q rest ih => simp [List.filter_cons, Bool.and_not_self, ih]
  simp [hz]

/-! ### Claim C2: StartMatch preconditions and atomic effects -/

/-- C2: for a signed-in caller, `handleStart` succeeds exactly when the
caller is the host, the room is an unlocked lobby and the roster has at
least 2 players; its single write then sets `status = in_progress`,
`locked = true`, the fresh seed, `playerCount` frozen to the roster size,
`finishedCount = 0`, `endedReason` cleared and `startedAt` stamped with
the server timestamp, while any failing precondition (roster size below 2
raising the insufficient-players alert) leaves the state unchanged. -/
theorem handleStart_spec (st : GState) (r : Room) (uid : String) (u now : Nat)
    (hroom : st.room = some r) :
    ((uid = r.hostUid ∧ r.status = .lobby ∧ r.locked = false ∧ 2 ≤ st.players.length) →
      handleStart st (some uid) u now = { st with room := some { r with
        status := .in_progress, locked := true, seed := some (mkSeed u),
        playerCount := some st.players.length, finishedCount := 0,
        endedReason := none, startedAt := some now } })
    ∧ (¬(uid = r.hostUid ∧ r.status = .lobby ∧ r.locked = false ∧ 2 ≤ st.players.length) →
      handleStart st (some uid) u now = st) := by
  constructor
  · rintro ⟨hh, hs, hl, hp⟩
    simp only [handleStart, hroom, isHostOf]
    rw [if_neg, if_neg, if_neg]
    · omega
    · simp [hs, hl]
    · simp [hh]
  · intro hneg
    simp only [handleStart, hroom, isHostOf]
    by_cases h1 : (uid == r.hostUid) = false
    · rw [if_pos h1]
    · have hh : uid = r.hostUid := by
        simp only [Bool.not_eq_false, beq_iff_eq] at h1
        exact h1
      rw [if_neg h1]
      by_cases h2 : r.status ≠ RoomStatus.lobby ∨ r.locked = true
      · rw [if_pos h2]
      · rw [if_neg h2]
        push_neg at h2
        by_cases h3 : st.players.length < 2
        · rw [if_pos h3]
        · exact absurd ⟨hh, h2.1, by simpa using h2.2, by omega⟩ hneg

/-- Witness for C2 on a freshly created two-player lobby. -/
theorem handleStart_spec_witness :
    (joinRoom (createRoom "ABC123" "h" "Host" 1) "p2" "Bob" 2).room =
      some ((createRoom "ABC123" "h" "Host" 1).room.get (by decide)) ∧
    handleStart (joinRoom (createRoom "ABC123" "h" "Host" 1) "p2" "Bob" 2)
        (some "h") 0 3 =
      { joinRoom (createRoom "ABC123" "h" "Host" 1) "p2" "Bob" 2 with
        room := some { (createRoom "ABC123" "h" "Host" 1).room.get (by decide) with
          status := .in_progress, locked := true, seed := some (mkSeed 0),
          playerCount := some 2, finishedCount := 0,
          endedReason := none, startedAt := some 3 } } :=
  ⟨by decide,
    (handleStart_spec (joinRoom (createRoom "ABC123" "h" "Host" 1) "p2" "Bob" 2)
      ((createRoom "ABC123" "h" "Host" 1).room.get (by decide)) "h" 0 3 (by decide)).1
      ⟨by decide, by decide, by decide, by decide⟩⟩

/-! ### Claim C4: host abandonment always forces ended -/

/-- C4: the host-abandonment write is unconditional — for every in-progress
room and any current `finishedCount` it sets `status = ended`,
`endedReason = host_left`, `endedAt` and `locked = true`, leaving the
counter untouched. -/
theorem hostLeftWrite_overrides (r : Room) (now : Nat)
    (h : r.status = .in_progress) :
    (hostLeftWrite r now).status = .ended
    ∧ (hostLeftWrite r now).endedReason = some .host_left
    ∧ (hostLeftWrite r now).endedAt = some now
    ∧ (hostLeftWrite r now).locked = true
    ∧ (hostLeftWrite r now).finishedCount = r.finishedCount :=
  ⟨rfl, rfl, rfl, rfl, rfl⟩

/-- Witness for C4 at the sample in-progress room. -/
theorem hostLeftWrite_overrides_witness :
    sampleRoom.status = RoomStatus.in_progress
    ∧ ((hostLeftWrite sampleRoom 9).status = RoomStatus.ended
      ∧ (hostLeftWrite sampleRoom 9).endedReason = some EndedReason.host_left
      ∧ (hostLeftWrite sampleRoom 9).endedAt = some 9
      ∧ (hostLeftWrite sampleRoom 9).locked = true
      ∧ (hostLeftWrite sampleRoom 9).finishedCount = sampleRoom.finishedCount) :=
  ⟨rfl, hostLeftWrite_overrides sampleRoom 9 rfl⟩

/-! ### Claim C9: repeated finish events -/

/-- C9 counterexample: in `sampleFinishedSt` player p1 already has
`finishedAt = 10`; running the finish transaction at instant 20
overwrites it to 20 — the previously-set value does not stay unchanged. -/
theorem finishedAt_overwritten_cex :
    (lookupP sampleFinishedSt.players "p1").bind Player.finishedAt = some 10
    ∧ (lookupP (finishGameTx sampleFinishedSt "p1" "Ann" sampleSnap 20).1.players
        "p1").bind Player.finishedAt = some 20 := by
  decide

/-- C9 (amended): when a finish event runs for a player whose `finishedAt`
is already set, the score snapshot is merged again and the
room-progression step is skipped — the room document is unchanged and
this event performs no terminal transition — but `finishedAt` is
overwritten with the event's fresh server timestamp rather than kept. -/
theorem finish_already_finished (st : GState) (r : Room) (uid name : String)
    (sn : Snap) (now t0 : Nat) (hroom : st.room = some r)
    (hfin : (lookupP st.players uid).bind Player.finishedAt = some t0) :
    (finishGameTx st uid name sn now).1.room = st.room
    ∧ (finishGameTx st uid name sn now).2 = false
    ∧ (lookupP (finishGameTx st uid name sn now).1.players uid).bind
        Player.finishedAt = some now := by
  have halready : ((lookupP st.players uid).bind Player.finishedAt).isSome = true := by
    rw [hfin]; rfl
  have hmerge : ∀ old, (finishMerge old uid name sn now).finishedAt = some now :=
    fun _ => rfl
  simp only [finishGameTx, hroom, halready]
  split_ifs with h1 h2
  · exact ⟨rfl, rfl, by rw [lookupP_upsertP_self]; exact hmerge _⟩
  · exact ⟨rfl, rfl, by rw [lookupP_upsertP_self]; exact hmerge _⟩
  · exact ⟨rfl, rfl, by rw [lookupP_upsertP_self]; exact hmerge _⟩

/-- Witness for C9 (amended) at the sample already-finished state. -/
theorem finish_already_finished_witness :
    sampleFinishedSt.room = some sampleRoom
    ∧ (lookupP sampleFinishedSt.players "p1").bind Player.finishedAt = some 10
    ∧ ((finishGameTx sampleFinishedSt "p1" "Ann" sampleSnap 20).1.room =
        sampleFinishedSt.room
      ∧ (finishGameTx sampleFinishedSt "p1" "Ann" sampleSnap 20).2 = false
      ∧ (lookupP (finishGameTx sampleFinishedSt "p1" "Ann" sampleSnap 20).1.players
          "p1").bind Player.finishedAt = some 20) :=
  ⟨rfl, by decide,
    finish_already_finished sampleFinishedSt sampleRoom "p1" "Ann" sampleSnap 20 10
      rfl (by decide)⟩

/-! ### Claim C3: idempotent join -/

theorem joinRoom_lobby_open (st : GState) (r : Room) (uid name : String)
    (now : Nat) (hroom : st.room = some r)
    (hguard : ¬(r.status ≠ RoomStatus.lobby ∨ r.locked = true)) :
    joinRoom st uid name now =
      if r.maxPlayers ≤ st.players.length then st
      else { st with players := upsertP st.players uid (joinMerge (lookupP st.players uid) uid name now) } := by
  simp only [joinRoom, hroom]
  rw [if_neg hguard]

/-- C3: joining a joinable lobby room twice in sequence with the same uid
yields exactly one player entry for that uid, and the second call leaves
the player's `score` and `attempts` fields with the same values they had
after the first call. -/
theorem joinRoom_idempotent (st : GState) (r : Room) (uid name1 name2 : String)
    (n1 n2 : Nat) (hroom : st.room = some r) (hs : r.status = .lobby)
    (hl : r.locked = false) (hcap : st.players.length < r.maxPlayers) :
    countP (joinRoom (joinRoom st uid name1 n1) uid name2 n2).players uid = 1
    ∧ (lookupP (joinRoom (joinRoom st uid name1 n1) uid name2 n2).players uid).bind
        Player.score
      = (lookupP (joinRoom st uid name1 n1).players uid).bind Player.score
    ∧ (lookupP (joinRoom (joinRoom st uid name1 n1) uid name2 n2).players uid).bind
        Player.attempts
      = (lookupP (joinRoom st uid name1 n1).players uid).bind Player.attempts := by
  have hguard : ¬(r.status ≠ RoomStatus.lobby ∨ r.locked = true) := by simp [hs, hl]
  have e1 := joinRoom_lobby_open st r uid name1 n1 hroom hguard
  rw [if_neg (by omega)] at e1
  rw [e1]
  have e2 := joinRoom_lobby_open
    { st with players := upsertP st.players uid (joinMerge (lookupP st.players uid) uid name1 n1) }
    r uid name2 n2 hroom hguard
  dsimp only at e2
  rw [e2]
  by_cases hcap2 : r.maxPlayers ≤
      (upsertP st.players uid (joinMerge (lookupP st.players uid) uid name1 n1)).length
  · rw [if_pos hcap2]
    exact ⟨countP_upsertP _ _ _, rfl, rfl⟩
  · rw [if_neg hcap2]
    refine ⟨countP_upsertP _ _ _, ?_, ?_⟩
    · rw [lookupP_upsertP_self, lookupP_upsertP_self]
      rfl
    · rw [lookupP_upsertP_self, lookupP_upsertP_self]
      rfl

/-- Witness for C3: a second player joins a fresh room twice. -/
theorem joinRoom_idempotent_witness :
    countP (joinRoom (joinRoom (createRoom "ABC123" "h" "Host" 1) "p2" "Bob" 2)
      "p2" "Bob" 3).players "p2" = 1
    ∧ (lookupP (joinRoom (joinRoom (createRoom "ABC123" "h" "Host" 1) "p2" "Bob" 2)
        "p2" "Bob" 3).players "p2").bind Player.score
      = (lookupP (joinRoom (createRoom "ABC123" "h" "Host" 1) "p2" "Bob" 2).players
          "p2").bind Player.score
    ∧ (lookupP (joinRoom (joinRoom (createRoom "ABC123" "h" "Host" 1) "p2" "Bob" 2)
        "p2" "Bob" 3).players "p2").bind Player.attempts
      = (lookupP (joinRoom (createRoom "ABC123" "h" "Host" 1) "p2" "Bob" 2).players
          "p2").bind Player.attempts :=
  joinRoom_idempotent (createRoom "ABC123" "h" "Host" 1)
    ((createRoom "ABC123" "h" "Host" 1).room.get (by decide)) "p2" "Bob" "Bob" 2 3
    rfl rfl rfl (by decide)

/-! ### Claim C1: exactly-once terminal transition -/

theorem finishGameTx_increments (st : GState) (r : Room) (uid name : String)
    (sn : Snap) (now : Nat) (N : Nat)
    (hroom : st.room = some r) (hs : r.status = .in_progress)
    (her : r.endedReason = none) (hpc : r.playerCount = some N) (hN : 0 < N)
    (hnotfin : (lookupP st.players uid).bind Player.finishedAt = none) :
    finishGameTx st uid name sn now =
      if N ≤ r.finishedCount + 1 then
        ({ room := some (finishTerminal r now),
           players := upsertP st.players uid
             (finishMerge (lookupP st.players uid) uid name sn now) }, true)
      else
        ({ room := some { r with finishedCount := r.finishedCount + 1 },
           players := upsertP st.players uid
             (finishMerge (lookupP st.players uid) uid name sn now) }, false) := by
  have halready : ((lookupP st.players uid).bind Player.finishedAt).isSome = false := by
    rw [hnotfin]
    rfl
  simp only [finishGameTx, hroom, hpc, halready]
  rw [if_neg (by simp [hs]), if_neg (by simp [her]), if_neg (by simp), if_neg (by omega)]

theorem runFinishes_closes (evs : List FinishEv) :
    ∀ (st : GState) (r : Room) (N : Nat),
      st.room = some r → r.status = .in_progress → r.endedReason = none →
      r.playerCount = some N → r.finishedCount + evs.length = N →
      evs ≠ [] → (evs.map FinishEv.uid).Nodup →
      (∀ ev ∈ evs, (lookupP st.players ev.uid).bind Player.finishedAt = none) →
      (runFinishes st evs).2 = 1
      ∧ ∃ r2, (runFinishes st evs).1.room = some r2
          ∧ r2.status = .ended ∧ r2.finishedCount = N
          ∧ r2.endedReason = some .all_finished := by
  induction evs with
  | nil =>
    intro st r N _ _ _ _ _ hne _ _
    exact absurd rfl hne
  | cons ev rest ih =>
    intro st r N hroom hs her hpc hsum hne hnodup hunfin
    have hN : 0 < N := by
      rw [List.length_cons] at hsum
      omega
    have hstep := finishGameTx_increments st r ev.uid ev.name ev.sn ev.now N hroom hs
      her hpc hN (hunfin ev (List.mem_cons_self _ _))
    rw [List.length_cons] at hsum
    by_cases hterm : N ≤ r.finishedCount + 1
    · have hrest : rest = [] := by
        have hlen0 : rest.length = 0 := by omega
        exact List.length_eq_zero.mp hlen0
      subst hrest
      rw [if_pos hterm] at hstep
      simp only [runFinishes, hstep]
      refine ⟨rfl, finishTerminal r ev.now, rfl, rfl, ?_, rfl⟩
      simp only [finishTerminal]
      omega
    · rw [if_neg hterm] at hstep
      have hlenrest : rest ≠ [] := by
        intro hr
        subst hr
        simp at hsum
        omega
      have hmapnodup : (ev.uid :: rest.map FinishEv.uid).Nodup := by
        simpa using hnodup
      have hnotin : ev.uid ∉ rest.map FinishEv.uid := (List.nodup_cons.mp hmapnodup).1
      have htail := ih
        ({ room := some { r with finishedCount := r.finishedCount + 1 },
           players := upsertP st.players ev.uid (finishMerge (lookupP st.players ev.uid) ev.uid ev.name ev.sn ev.now) })
        { r with finishedCount := r.finishedCount + 1 } N rfl hs her hpc
        (by simp; omega) hlenrest (List.nodup_cons.mp hmapnodup).2 ?unfin
      case unfin =>
        intro ev2 hev2
        have hne2 : ev2.uid ≠ ev.uid := by
          intro he
          exact hnotin (he ▸ List.mem_map_of_mem FinishEv.uid hev2)
        rw [lookupP_upsertP_ne _ hne2]
        exact hunfin ev2 (List.mem_cons_of_mem _ hev2)
      simp only [runFinishes, hstep]
      exact ⟨by simpa using htail.1, htail.2⟩

/-- C1: for a room whose `playerCount` was frozen at `N ≥ 1` (in progress,
no `endedReason`, counter at 0) and any serialization order of the `N`
distinct players' finish transactions (each one atomic, each player not
yet finished), exactly one transaction performs the in_progress → ended
transition, the final `finishedCount` equals `N`, and
`endedReason = all_finished`. -/
theorem all_finished_exactly_once (st : GState) (r : Room) (N : Nat)
    (evs : List FinishEv) (hroom : st.room = some r)
    (hs : r.status = .in_progress) (her : r.endedReason = none)
    (hfc : r.finishedCount = 0) (hpc : r.playerCount = some N) (hN : 1 ≤ N)
    (hlen : evs.length = N) (hnodup : (evs.map FinishEv.uid).Nodup)
    (hunfin : ∀ ev ∈ evs, (lookupP st.players ev.uid).bind Player.finishedAt = none) :
    (runFinishes st evs).2 = 1
    ∧ ∃ r2, (runFinishes st evs).1.room = some r2
        ∧ r2.status = .ended ∧ r2.finishedCount = N
        ∧ r2.endedReason = some .all_finished :=
  runFinishes_closes evs st r N hroom hs her hpc (by omega)
    (by
      intro h
      rw [h] at hlen
      simp at hlen
      omega) hnodup hunfin

/-- Witness for C1: both players of the two-player sample room finish, in
the listed order. -/
theorem all_finished_exactly_once_witness :
    (runFinishes sampleSt sampleEvs).2 = 1
    ∧ ∃ r2, (runFinishes sampleSt sampleEvs).1.room = some r2
        ∧ r2.status = .ended ∧ r2.finishedCount = 2
        ∧ r2.endedReason = some .all_finished :=
  all_finished_exactly_once sampleSt sampleRoom 2 sampleEvs rfl rfl rfl rfl rfl
    (by decide) rfl (by decide) (by decide)

/-! ### Claim C5: forward-only status transitions -/

theorem joinRoom_room (st : GState) (uid name : String) (now : Nat) :
    (joinRoom st uid name now).room = st.room := by
  unfold joinRoom
  cases hr : st.room with
  | none => exact hr
  | some r =>
    dsimp only
    split_ifs <;> first | rfl | exact hr

theorem leaveRoom_room (st : GState) (uid : String) :
    (leaveRoom st uid).room = st.room := rfl

theorem statusRank_le_two (s : RoomStatus) : statusRank s ≤ 2 := by
  cases s <;> simp [statusRank]

/-- C5 counterexample: the claim says no operation performs a direct
lobby → ended transition (host abandonment in the lobby being a deletion,
not a status write), but the host-abandonment write applied to a
freshly-created lobby room ends it directly with `endedReason = host_left`. -/
theorem lobby_to_ended_cex :
    ((createRoom "ABC123" "h" "Host" 1).room.map Room.status = some RoomStatus.lobby)
    ∧ ((applyOp (createRoom "ABC123" "h" "Host" 1) (Op.hostExit 2)).room.map Room.status
        = some RoomStatus.ended)
    ∧ ((applyOp (createRoom "ABC123" "h" "Host" 1) (Op.hostExit 2)).room.map
        Room.endedReason = some (some EndedReason.host_left)) := by
  decide

/-- C5 (amended): room status moves forward-only along
lobby → in_progress → ended under every lifecycle operation, and the
non-host lobby leave touches only the player document, never the status;
however host abandonment is a status write (`status = ended`), so a direct
lobby → ended transition does exist on that path (see the counterexample). -/
theorem status_forward_only :
    (∀ (st : GState) (op : Op) (r r2 : Room),
      st.room = some r → (applyOp st op).room = some r2 →
      statusRank r.status ≤ statusRank r2.status)
    ∧ (∀ (st : GState) (uid : String), (applyOp st (Op.leave uid)).room = st.room) := by
  constructor
  · intro st op r r2 h1 h2
    cases op with
    | join uid name now =>
      rw [applyOp, joinRoom_room, h1] at h2
      obtain rfl := Option.some.inj h2
      exact le_refl _
    | leave uid =>
      rw [applyOp, leaveRoom_room, h1] at h2
      obtain rfl := Option.some.inj h2
      exact le_refl _
    | setDur d =>
      rw [applyOp] at h2
      unfold setDuration at h2
      rw [h1] at h2
      dsimp only at h2
      split_ifs at h2
      · rw [h1] at h2
        obtain rfl := Option.some.inj h2
        exact le_refl _
      · obtain rfl := Option.some.inj h2
        exact le_refl _
    | start caller u now =>
      rw [applyOp] at h2
      unfold handleStart at h2
      rw [h1] at h2
      dsimp only at h2
      split_ifs at h2 with hA hB hC
      · rw [h1] at h2
        obtain rfl := Option.some.inj h2
        exact le_refl _
      · rw [h1] at h2
        obtain rfl := Option.some.inj h2
        exact le_refl _
      · rw [h1] at h2
        obtain rfl := Option.some.inj h2
        exact le_refl _
      · obtain rfl := Option.some.inj h2
        push_neg at hB
        rw [hB.1]
        simp [statusRank]
    | finish ev =>
      rw [applyOp] at h2
      unfold finishGameTx at h2
      rw [h1] at h2
      dsimp only at h2
      split_ifs at h2 with hA hB hC
      · obtain rfl := Option.some.inj h2
        exact le_refl _
      · obtain rfl := Option.some.inj h2
        exact le_refl _
      · obtain rfl := Option.some.inj h2
        exact le_refl _
      · cases hpc : r.playerCount with
        | none =>
          rw [hpc] at h2
          dsimp only at h2
          obtain rfl := Option.some.inj h2
          exact le_refl _
        | some pc =>
          rw [hpc] at h2
          dsimp only at h2
          split_ifs at h2
          · obtain rfl := Option.some.inj h2
            exact le_refl _
          · obtain rfl := Option.some.inj h2
            rw [not_not] at hA
            rw [hA]
            simp [finishTerminal, statusRank]
          · obtain rfl := Option.some.inj h2
            exact le_refl _
    | hostExit now =>
      rw [applyOp] at h2
      unfold hostLeave at h2
      rw [h1] at h2
      dsimp only at h2
      obtain rfl := Option.some.inj h2
      exact statusRank_le_two _
  · intro st uid
    rfl

/-- Witness for C5 (amended): a setDuration call on a fresh lobby room
does not move the status backwards. -/
theorem status_forward_only_witness :
    (createRoom "ABC123" "h" "Host" 1).room =
      some ((createRoom "ABC123" "h" "Host" 1).room.get (by decide))
    ∧ (applyOp (createRoom "ABC123" "h" "Host" 1) (Op.setDur 120)).room =
      some ((applyOp (createRoom "ABC123" "h" "Host" 1) (Op.setDur 120)).room.get
        (by decide))
    ∧ statusRank ((createRoom "ABC123" "h" "Host" 1).room.get (by decide)).status ≤
      statusRank ((applyOp (createRoom "ABC123" "h" "Host" 1)
        (Op.setDur 120)).room.get (by decide)).status :=
  ⟨by decide, by decide,
    status_forward_only.1 (createRoom "ABC123" "h" "Host" 1) (Op.setDur 120)
      ((createRoom "ABC123" "h" "Host" 1).room.get (by decide))
      ((applyOp (createRoom "ABC123" "h" "Host" 1) (Op.setDur 120)).room.get (by decide))
      (by decide) (by decide)⟩

/-! ### Claim C10: the stored seed is never 0 and always seeds the generator -/

theorem mkSeed_bounds {u : Nat} (hu : u < 9007199254740992) :
    1 ≤ mkSeed u ∧ mkSeed u ≤ 2000000000 := by
  constructor
  · exact Nat.le_add_left 1 _
  · unfold mkSeed
    have hlt : u * 2000000000 / 9007199254740992 < 2000000000 := by
      rw [Nat.div_lt_iff_lt_mul (by norm_num)]
      calc u * 2000000000 < 9007199254740992 * 2000000000 :=
            (Nat.mul_lt_mul_right (by norm_num)).mpr hu
        _ = 2000000000 * 9007199254740992 := Nat.mul_comm _ _
    omega

/-- C10: in every reachable room state the stored seed is either null
(before start) or an integer in [1, 2000000000] assigned by `handleStart`
— never 0 — and consequently a client launched into a room game receives
a seed parameter in that range and constructs the seeded deterministic
generator, never falling back to the `Math.random` path. -/
theorem seed_invariant (st : GState) (h : Reachable st) :
    (∀ r, st.room = some r →
      r.seed = none ∨ ∃ s, r.seed = some s ∧ 1 ≤ s ∧ s ≤ 2000000000)
    ∧ (∀ r s, st.room = some r → gameLaunchSeed r = some s →
        (1 ≤ s ∧ s ≤ 2000000000) ∧ usesSeededRng (some s) = true) := by
  have hinv : ∀ r, st.room = some r →
      r.seed = none ∨ ∃ s, r.seed = some s ∧ 1 ≤ s ∧ s ≤ 2000000000 := by
    induction h with
    | create code hostUid name now =>
      intro r hr
      simp only [createRoom] at hr
      obtain rfl := Option.some.inj hr
      left
      rfl
    | step st2 op hreach hok ih =>
      intro r hr
      cases op with
      | join uid name now =>
        rw [applyOp, joinRoom_room] at hr
        exact ih r hr
      | leave uid =>
        rw [applyOp, leaveRoom_room] at hr
        exact ih r hr
      | setDur d =>
        rw [applyOp] at hr
        unfold setDuration at hr
        cases hsr : st2.room with
        | none =>
          rw [hsr] at hr
          exact ih r hr
        | some r0 =>
          rw [hsr] at hr
          dsimp only at hr
          split_ifs at hr
          · exact ih r hr
          · obtain rfl := Option.some.inj hr
            simpa using ih r0 hsr
      | start caller u now =>
        rw [applyOp] at hr
        unfold handleStart at hr
        cases hsr : st2.room with
        | none =>
          rw [hsr] at hr
          exact ih r hr
        | some r0 =>
          rw [hsr] at hr
          dsimp only at hr
          split_ifs at hr
          · exact ih r hr
          · exact ih r hr
          · exact ih r hr
          · obtain rfl := Option.some.inj hr
            right
            exact ⟨mkSeed u, rfl, (mkSeed_bounds hok).1, (mkSeed_bounds hok).2⟩
      | finish ev =>
        rw [applyOp] at hr
        unfold finishGameTx at hr
        cases hsr : st2.room with
        | none =>
          rw [hsr] at hr
          exact ih r hr
        | some r0 =>
          rw [hsr] at hr
          dsimp only at hr
          split_ifs at hr
          · obtain rfl := Option.some.inj hr
            exact ih r0 hsr
          · obtain rfl := Option.some.inj hr
            exact ih r0 hsr
          · obtain rfl := Option.some.inj hr
            exact ih r0 hsr
          · cases hpc : r0.playerCount with
            | none =>
              rw [hpc] at hr
              dsimp only at hr
              obtain rfl := Option.some.inj hr
              exact ih r0 hsr
            | some pc =>
              rw [hpc] at hr
              dsimp only at hr
              split_ifs at hr
              · obtain rfl := Option.some.inj hr
                exact ih r0 hsr
              · obtain rfl := Option.some.inj hr
                simpa [finishTerminal] using ih r0 hsr
              · obtain rfl := Option.some.inj hr
                simpa using ih r0 hsr
      | hostExit now =>
        rw [applyOp] at hr
        unfold hostLeave at hr
        cases hsr : st2.room with
        | none =>
          rw [hsr] at hr
          exact ih r hr
        | some r0 =>
          rw [hsr] at hr
          dsimp only at hr
          obtain rfl := Option.some.inj hr
          simpa [hostLeftWrite] using ih r0 hsr
  refine ⟨hinv, ?_⟩
  intro r s hr hls
  unfold gameLaunchSeed at hls
  by_cases hst : r.status = RoomStatus.in_progress
  · rw [if_pos hst] at hls
    cases hsd : r.seed with
    | none =>
      rw [hsd] at hls
      exact absurd hls (by simp)
    | some s0 =>
      rw [hsd] at hls
      dsimp only at hls
      by_cases hz : s0 ≠ 0
      · rw [if_pos hz] at hls
        by_cases hd : r.durationSec ≠ 0
        · rw [if_pos hd] at hls
          obtain rfl := Option.some.inj hls
          rcases hinv r hr with hnone | ⟨s1, hs1, hlo, hhi⟩
          · rw [hsd] at hnone
            exact absurd hnone (by simp)
          · rw [hsd] at hs1
            obtain rfl := Option.some.inj hs1
            exact ⟨⟨hlo, hhi⟩, by simp [usesSeededRng, hz]⟩
        · rw [if_neg hd] at hls
          exact absurd hls (by simp)
      · rw [if_neg hz] at hls
        exact absurd hls (by simp)
  · rw [if_neg hst] at hls
    exact absurd hls (by simp)

/-- Witness for C10: create, one join, then a successful start; the stored
seed is 1 (draw 0), the launch parameter is in range and the seeded
generator is chosen. -/
theorem seed_invariant_witness :
    ((1 : Nat) ≤ 1 ∧ (1 : Nat) ≤ 2000000000) ∧ usesSeededRng (some 1) = true :=
  (seed_invariant
    (applyOp (applyOp (createRoom "ABC123" "h" "Host" 1) (Op.join "p" "Bob" 2))
      (Op.start (some "h") 0 3))
    (Reachable.step (applyOp (createRoom "ABC123" "h" "Host" 1) (Op.join "p" "Bob" 2))
      (Op.start (some "h") 0 3)
      (Reachable.step (createRoom "ABC123" "h" "Host" 1) (Op.join "p" "Bob" 2)
        (Reachable.create "ABC123" "h" "Host" 1) (by trivial))
      (by show (0 : Nat) < 9007199254740992; norm_num))).2
    ((applyOp (applyOp (createRoom "ABC123" "h" "Host" 1) (Op.join "p" "Bob" 2))
      (Op.start (some "h") 0 3)).room.get (by decide))
    1 (by decide) (by decide)

/-! ### Claim C8: result ranking -/

instance : IsTotal PlayerResult playerBefore where
  total := by
    intro a b
    unfold playerBefore
    by_cases hs : a.score = b.score
    · by_cases ha : a.accuracy = b.accuracy
      · rcases le_total a.displayName b.displayName with h3 | h3
        · exact Or.inl (Or.inr ⟨hs.symm, Or.inr ⟨ha.symm, h3⟩⟩)
        · exact Or.inr (Or.inr ⟨hs, Or.inr ⟨ha, h3⟩⟩)
      · rcases Nat.lt_or_ge a.accuracy b.accuracy with h2 | h2
        · exact Or.inr (Or.inr ⟨hs, Or.inl h2⟩)
        · exact Or.inl (Or.inr ⟨hs.symm, Or.inl (by omega)⟩)
    · rcases Nat.lt_or_ge a.score b.score with h1 | h1
      · exact Or.inr (Or.inl h1)
      · exact Or.inl (Or.inl (by omega))

instance : IsTrans PlayerResult playerBefore where
  trans := by
    intro a b c hab hbc
    unfold playerBefore at *
    rcases hab with h1 | ⟨e1, h1⟩
    · rcases hbc with h2 | ⟨e2, h2⟩
      · left
        omega
      · left
        omega
    · rcases hbc with h2 | ⟨e2, h2⟩
      · left
        omega
      · refine Or.inr ⟨by omega, ?_⟩
        rcases h1 with h1a | ⟨f1, h1a⟩
        · rcases h2 with h2a | ⟨f2, h2a⟩
          · left
            omega
          · left
            omega
        · rcases h2 with h2a | ⟨f2, h2a⟩
          · left
            omega
          · exact Or.inr ⟨by omega, le_trans h1a h2a⟩

theorem rankLoop_map_base (topAcc : Nat) (myUid : Option String) :
    ∀ (l : List PlayerResult) (i : Nat) (last : Option (Nat × Nat)) (cur : Nat),
      (rankLoop topAcc myUid l i last cur).map baseOf = l := by
  intro l
  induction l with
  | nil => intro i last cur; rfl
  | cons p rest ih =>
    intro i last cur
    unfold rankLoop
    split_ifs <;> simp [baseOf, ih]

theorem rankLoop_adjacent (topAcc : Nat) (myUid : Option String) :
    ∀ (l : List PlayerResult) (i0 : Nat) (last : Option (Nat × Nat)) (cur : Nat)
      (k : Nat) (x y : RankedPlayer),
      (rankLoop topAcc myUid l i0 last cur)[k]? = some x →
      (rankLoop topAcc myUid l i0 last cur)[k + 1]? = some y →
      (y.score = x.score ∧ y.accuracy = x.accuracy → y.rank = x.rank)
      ∧ (¬(y.score = x.score ∧ y.accuracy = x.accuracy) → y.rank = i0 + k + 2) := by
  intro l
  induction l with
  | nil =>
    intro i0 last cur k x y hx _
    simp [rankLoop] at hx
  | cons p rest ih =>
    intro i0 last cur k x y hx hy
    rw [rankLoop] at hx hy
    by_cases hcond : last = some (p.score, p.accuracy)
    · rw [if_pos hcond] at hx hy
      rw [hcond] at hx hy
      cases k with
      | zero =>
        rw [List.getElem?_cons_zero] at hx
        obtain rfl := Option.some.inj hx
        rw [List.getElem?_cons_succ] at hy
        cases rest with
        | nil => simp [rankLoop] at hy
        | cons q rest2 =>
          rw [rankLoop] at hy
          by_cases hcond2 : some (p.score, p.accuracy) = some (q.score, q.accuracy)
          · rw [if_pos hcond2, List.getElem?_cons_zero] at hy
            obtain rfl := Option.some.inj hy
            have hkey := Option.some.inj hcond2
            rw [Prod.mk.injEq] at hkey
            constructor
            · intro _
              rfl
            · intro hne
              dsimp only at hne
              exact absurd ⟨hkey.1.symm, hkey.2.symm⟩ hne
          · rw [if_neg hcond2, List.getElem?_cons_zero] at hy
            obtain rfl := Option.some.inj hy
            constructor
            · intro hk
              dsimp only at hk
              refine absurd ?_ hcond2
              rw [hk.1, hk.2]
            · intro _
              show i0 + 1 + 1 = i0 + 0 + 2
              omega
      | succ k2 =>
        rw [List.getElem?_cons_succ] at hx hy
        have hrec := ih (i0 + 1) (some (p.score, p.accuracy)) cur k2 x y hx hy
        exact ⟨hrec.1, fun hne => by rw [hrec.2 hne]; omega⟩
    · rw [if_neg hcond] at hx hy
      cases k with
      | zero =>
        rw [List.getElem?_cons_zero] at hx
        obtain rfl := Option.some.inj hx
        rw [List.getElem?_cons_succ] at hy
        cases rest with
        | nil => simp [rankLoop] at hy
        | cons q rest2 =>
          rw [rankLoop] at hy
          by_cases hcond2 : some (p.score, p.accuracy) = some (q.score, q.accuracy)
          · rw [if_pos hcond2, List.getElem?_cons_zero] at hy
            obtain rfl := Option.some.inj hy
            have hkey := Option.some.inj hcond2
            rw [Prod.mk.injEq] at hkey
            constructor
            · intro _
              rfl
            · intro hne
              dsimp only at hne
              exact absurd ⟨hkey.1.symm, hkey.2.symm⟩ hne
          · rw [if_neg hcond2, List.getElem?_cons_zero] at hy
            obtain rfl := Option.some.inj hy
            constructor
            · intro hk
              dsimp only at hk
              refine absurd ?_ hcond2
              rw [hk.1, hk.2]
            · intro _
              show i0 + 1 + 1 = i0 + 0 + 2
              omega
      | succ k2 =>
        rw [List.getElem?_cons_succ] at hx hy
        have hrec := ih (i0 + 1) (some (p.score, p.accuracy)) (i0 + 1) k2 x y hx hy
        exact ⟨hrec.1, fun hne => by rw [hrec.2 hne]; omega⟩

/-- C8: `computeRanks` orders entries by score descending, then accuracy
descending, then display name ascending, assigns competition ranks (the
first entry has rank 1; an entry tied with its predecessor on score and
accuracy shares its rank, otherwise its rank is its index + 1), and on the
roster A(100, 90), B(100, 95), C(80, 99) yields B(1), A(2), C(3) with B
the winner and the top-accuracy badge held exactly by C. -/
theorem computeRanks_spec :
    computeRanks [pA, pB, pC] none =
      [{ uid := "B", displayName := "B", score := 100, accuracy := 95, attempts := 10,
         rank := 1, isWinner := true, isTopAccuracy := false, isMe := false },
       { uid := "A", displayName := "A", score := 100, accuracy := 90, attempts := 10,
         rank := 2, isWinner := false, isTopAccuracy := false, isMe := false },
       { uid := "C", displayName := "C", score := 80, accuracy := 99, attempts := 10,
         rank := 3, isWinner := false, isTopAccuracy := true, isMe := false }]
    ∧ (∀ (ps : List PlayerResult) (myUid : Option String),
        List.Chain' (fun x y => playerBefore (baseOf x) (baseOf y))
          (computeRanks ps myUid))
    ∧ (∀ (ps : List PlayerResult) (myUid : Option String) (x : RankedPlayer),
        (computeRanks ps myUid)[0]? = some x → x.rank = 1)
    ∧ (∀ (ps : List PlayerResult) (myUid : Option String) (k : Nat)
        (x y : RankedPlayer),
        (computeRanks ps myUid)[k]? = some x →
        (computeRanks ps myUid)[k + 1]? = some y →
        (y.score = x.score ∧ y.accuracy = x.accuracy → y.rank = x.rank)
        ∧ (¬(y.score = x.score ∧ y.accuracy = x.accuracy) → y.rank = k + 2)) := by
  refine ⟨by decide, ?_, ?_, ?_⟩
  · intro ps myUid
    have hsorted : List.Sorted playerBefore (sortPlayers ps) :=
      List.sorted_insertionSort playerBefore ps
    have hchain : List.Chain' playerBefore (sortPlayers ps) := hsorted.chain'
    have hmap := rankLoop_map_base (topAccuracyOf (sortPlayers ps)) myUid
      (sortPlayers ps) 0 none 0
    rw [← hmap] at hchain
    exact (List.chain'_map baseOf).mp hchain
  · intro ps myUid x hx
    unfold computeRanks at hx
    cases hs : sortPlayers ps with
    | nil => rw [hs] at hx; simp [rankLoop] at hx
    | cons p rest =>
      rw [hs, rankLoop] at hx
      rw [if_neg (by simp)] at hx
      rw [List.getElem?_cons_zero] at hx
      obtain rfl := Option.some.inj hx
      rfl
  · intro ps myUid k x y hx hy
    unfold computeRanks at hx hy
    simpa using rankLoop_adjacent (topAccuracyOf (sortPlayers ps)) myUid
      (sortPlayers ps) 0 none 0 k x y hx hy

/-- Witness for C8: on the scenario roster, entry 0 (player B) has rank 1. -/
theorem computeRanks_spec_witness :
    (computeRanks [pA, pB, pC] none)[0]? =
      some { uid := "B", displayName := "B", score := 100, accuracy := 95,
             attempts := 10, rank := 1, isWinner := true, isTopAccuracy := false,
             isMe := false }
    ∧ ({ uid := "B", displayName := "B", score := 100, accuracy := 95,
         attempts := 10, rank := 1, isWinner := true, isTopAccuracy := false,
         isMe := false } : RankedPlayer).rank = 1 :=
  ⟨by decide,
    computeRanks_spec.2.2.1 [pA, pB, pC] none
      { uid := "B", displayName := "B", score := 100, accuracy := 95,
        attempts := 10, rank := 1, isWinner := true, isTopAccuracy := false,
        isMe := false } (by decide)⟩

end MathWhiz
